import Mathlib

/-!
Verification of the nftfloorbot polling core (the multi-store version of the
repository, `watchFloor` / `fetchFloor` / `saveFloor` / `findFloor`).

Shallow embedding conventions:
  * Go `float64` values (floors, bounds, multipliers) are embedded as `ℚ`;
    the claims under study are about control flow and exact formulas, not
    about binary rounding.
  * The network is a parameter `responses : String → Option (List (String × JSON))`
    mapping a URL to the parsed JSON object returned by `http.Get` +
    `json.Unmarshal` (`none` models a transport, read or parse failure).
  * `time.Now()` is a parameter `now : Nat`.
  * A Go `map[string]float64` is embedded as an association list in insertion
    order together with, where iteration order matters, an explicit
    `iter` parameter: Go map iteration order is unspecified (and randomized
    by the runtime), so any permutation of the entries is an admissible
    iteration order.
-/

/-- JSON values as produced by Go `encoding/json` decoding into `interface{}`:
numbers arrive as `float64` (embedded as `ℚ`), objects as
`map[string]interface{}` (embedded as an association list), plus strings,
booleans, `null` and arrays. -/
inductive JSON where
  | num (v : ℚ)
  | obj (fields : List (String × JSON))
  | str (s : String)
  | boolean (b : Bool)
  | null
  | arr (elems : List JSON)

/-- Lookup in a decoded JSON object, modelling Go `stats[key]` (a missing key
yields the zero value of `interface{}`, i.e. `nil`, modelled as `none`). -/
def jsonLookup : List (String × JSON) → String → Option JSON
  | [], _ => none
  | (k, v) :: rest, key => if k = key then some v else jsonLookup rest key

/-- The errors `fetchFloor` can return.  Each constructor carries exactly the
data the corresponding Go `fmt.Errorf` call interpolates:
  * `fetchFailed url` models the wrapped transport / body-read / unmarshal
    errors, all built with format `"%s: %w"` around the URL;
  * `invalidTraverse ended` models `"invalid json traverse. Ended with %v"`
    (note: the URL is not part of this message);
  * `floorNotFound url` models `"%s: floor not found"`. -/
inductive FloorError where
  | fetchFailed (url : String)
  | invalidTraverse (ended : Option JSON)
  | floorNotFound (url : String)

/-- The traversal loop of Go `fetchFloor` (after the body has been fetched and
unmarshalled into `stats`): for each key of `tree` in order, switch on
`stats[key]`; a `float64` returns `val * multiplier` at once, an object
becomes the new current node, anything else (including a missing key) fails
with the invalid-traverse error; an exhausted tree fails with
"floor not found". -/
def fetchFloor (url : String) (stats : List (String × JSON)) (tree : List String)
    (multiplier : ℚ) : Except FloorError ℚ :=
  match tree with
  | [] => .error (.floorNotFound url)
  | key :: rest =>
    match jsonLookup stats key with
    | some (.num v) => .ok (v * multiplier)
    | some (.obj fields) => fetchFloor url fields rest multiplier
    | other => .error (.invalidTraverse other)

/-- Go `fetchFloor` including its I/O prefix: `http.Get`, `ReadAll` and
`json.Unmarshal` errors (modelled by `responses url = none`) are wrapped with
the URL; on success the traversal loop runs on the decoded object. -/
def fetchFloorNet (responses : String → Option (List (String × JSON)))
    (url : String) (tree : List String) (multiplier : ℚ) : Except FloorError ℚ :=
  match responses url with
  | none => .error (.fetchFailed url)
  | some stats => fetchFloor url stats tree multiplier

/-- One history entry (`Persisted` in the Go source): slug, floor and the
`time.Now()` timestamp recorded when the observation was appended. -/
structure Persisted where
  slug : String
  floor : ℚ
  date : Nat
deriving DecidableEq, Repr

/-- `StoreConfig` of the Go source: the watched slugs, the two `%s` URL
templates, the alert band bounds, the JSON key path (`json_map`) and the
unit-conversion multiplier. -/
structure StoreConfig where
  slugs : List String
  storeURL : String
  statsURL : String
  max : ℚ
  min : ℚ
  tree : List String
  multiplier : ℚ

/-- `TelegramConfig` of the Go source. -/
structure TelegramConfig where
  botID : String
  recipientID : String

/-- `Config` of the Go source. -/
structure Config where
  telegram : TelegramConfig
  stores : List StoreConfig
  output : String

/-- Go `findFloor`: scan the history downward from index `len-1` to `0` and
return the floor of the first entry whose slug matches (i.e. the last match
in sequence order); return `0` when none matches. -/
def findFloor (old : List Persisted) (slug : String) : ℚ :=
  match old.reverse.find? (fun p => p.slug == slug) with
  | some p => p.floor
  | none => 0

/-- Substitution of every `%s` verb in a character list by the argument. -/
def substPercentS : List Char → List Char → List Char
  | '%' :: 's' :: rest, arg => arg ++ substPercentS rest arg
  | c :: rest, arg => c :: substPercentS (rest) arg
  | [], _ => []

/-- Go `fmt.Sprintf` with a single `%s` verb, as used for `store.StatsURL`
and `store.StoreURL` (the configured templates carry exactly one `%s`):
substitute `arg` for the `%s` placeholder. -/
def sprintf1 (template arg : String) : String :=
  String.mk (substPercentS template.data arg.data)

/-- Assignment `m[key] = v` on a Go `map[string]float64`, embedded as an
association list kept in insertion order: an existing key is overwritten in
place, a new key is appended. -/
def mapInsert (m : List (String × ℚ)) (key : String) (v : ℚ) :
    List (String × ℚ) :=
  if m.any (fun kv => kv.1 == key) then
    m.map (fun kv => if kv.1 == key then (key, v) else kv)
  else m ++ [(key, v)]

/-- Reading `m[key]` from the embedded Go map. -/
def lookupFloors : List (String × ℚ) → String → Option ℚ
  | [], _ => none
  | (k, v) :: rest, key => if k == key then some v else lookupFloors rest key

/-- Rounding to the nearest integer, ties to even, for a nonnegative rational
(given as `|q| * 10 ^ prec` by `formatFixed`); models the correct rounding
performed by Go `strconv` when `fmt` formats a float with a fixed precision. -/
def qRound (x : ℚ) : Nat :=
  let n : Nat := x.num.toNat
  let d : Nat := x.den
  let q := n / d
  let r := n % d
  if 2 * r < d then q
  else if d < 2 * r then q + 1
  else if q % 2 = 0 then q else q + 1

/-- Zero-padded fractional part of width `prec`. -/
def natPad (prec : Nat) (fp : Nat) : String :=
  let fs := toString fp
  String.mk (List.replicate (prec - fs.length) (Char.ofNat 48)) ++ fs

/-- Go `fmt` fixed-point formatting `%.<prec>f` of a number. -/
def formatFixed (prec : Nat) (q : ℚ) : String :=
  let sign := if q < 0 then "-" else ""
  let a : ℚ := if q < 0 then -q else q
  let n : Nat := qRound (a * (10 : ℚ) ^ prec)
  let ip := n / 10 ^ prec
  let fp := n % 10 ^ prec
  sign ++ toString ip ++ "." ++ natPad prec fp

/-- The alert line built in `watchFloor`:
`fmt.Sprintf("[%s](%s): %.4f", slug, store_url, floor)` followed by
`fmt.Sprintf("*(+%.2f%%)*", dif*100)` when `dif > 0` and by
the backquoted `fmt.Sprintf` variant `(%.2f%%)` otherwise. -/
def alertMsg (slug storeURL : String) (floor dif : ℚ) : String :=
  let base := "[" ++ slug ++ "](" ++ storeURL ++ "): " ++ formatFixed 4 floor
  if 0 < dif then base ++ "*(+" ++ formatFixed 2 (dif * 100) ++ "%)*"
  else base ++ "`(" ++ formatFixed 2 (dif * 100) ++ "%)`"

/-- The body of the per-slug loop inside a store worker of `watchFloor`
(lines 92–119 of the Go source), acting on the pair of shared accumulators
`acc = (message, floors)`:
fetch and extract the floor (on error, print and continue);
if the previous floor is positive and unchanged, skip entirely;
otherwise record the floor in the map; if the floor is at or outside the
`(min, max)` band, produce no alert line; otherwise append the formatted
alert line with `dif = (floor - old_floor) / floor`. -/
def processSlugStep (responses : String → Option (List (String × JSON)))
    (store : StoreConfig) (old_floors : List Persisted)
    (acc : List String × List (String × ℚ)) (slug : String) :
    List String × List (String × ℚ) :=
  match fetchFloorNet responses (sprintf1 store.statsURL slug)
      store.tree store.multiplier with
  | .error _ => acc
  | .ok floor =>
    let old_floor := findFloor old_floors slug
    if 0 < old_floor ∧ old_floor = floor then acc
    else
      let floors := mapInsert acc.2 slug floor
      if store.max ≤ floor ∨ floor ≤ store.min then (acc.1, floors)
      else
        let dif := (floor - old_floor) / floor
        (acc.1 ++ [alertMsg slug (sprintf1 store.storeURL slug) floor dif], floors)

/-- One store worker: the slugs of the store processed sequentially in
slug-list order against the shared accumulators. -/
def processStore (responses : String → Option (List (String × JSON)))
    (store : StoreConfig) (old_floors : List Persisted)
    (acc : List String × List (String × ℚ)) :
    List String × List (String × ℚ) :=
  store.slugs.foldl (processSlugStep responses store old_floors) acc

/-- All store workers of one cycle.  The Go code runs one goroutine per store
writing into the shared `message` and `floors` with no lock; this definition
fixes the store-order serialization of those writes (one admissible
interleaving — see the data-race discussion of `watchFloor` in the spec). -/
def pollStores (responses : String → Option (List (String × JSON)))
    (stores : List StoreConfig) (old_floors : List Persisted) :
    List String × List (String × ℚ) :=
  stores.foldl (fun acc store => processStore responses store old_floors acc) ([], [])

/-- Go `saveFloor` minus the file write: append one `Persisted` per entry of
the new-floors map to the previously loaded history, then marshal the whole
sequence.  `entries` is the map in the order Go `range` happens to iterate
it (unspecified for a Go map — any permutation of the entries); `now` models
`time.Now()`. -/
def saveFloor (persisted : List Persisted) (entries : List (String × ℚ))
    (now : Nat) : List Persisted :=
  entries.foldl
    (fun acc e => acc ++ [{ slug := e.1, floor := e.2, date := now }]) persisted

/-- The externally visible effects of one `watchFloor` cycle: the texts passed
to `sendMessage` and the history sequences passed to the file write of
`saveFloor`. -/
structure CycleResult where
  sent : List String
  written : List (List Persisted)
deriving DecidableEq, Repr

/-- Go `watchFloor` for one cycle, with its I/O abstracted: `old_floors` is
the history `readFloor` loaded (empty on read failure), `responses` is the
network, `iter` is the iteration order the Go runtime picks for the
`range` over the new-floors map inside `saveFloor` (any permutation of the
insertion-order entries), and `now` is `time.Now()`.  After all workers are
joined: one `sendMessage` with the newline-joined lines iff `message` is
nonempty, and one `saveFloor` write iff `floors` is nonempty. -/
def watchFloor (responses : String → Option (List (String × JSON)))
    (iter : List (String × ℚ) → List (String × ℚ))
    (config : Config) (old_floors : List Persisted) (now : Nat) : CycleResult :=
  let r := pollStores responses config.stores old_floors
  { sent := if 0 < r.1.length then [String.intercalate "\n" r.1] else []
    written := if 0 < r.2.length then [saveFloor old_floors (iter r.2) now] else [] }

/-! ## Helper lemmas -/

theorem saveFloor_eq_append (entries : List (String × ℚ)) (persisted : List Persisted)
    (now : Nat) :
    saveFloor persisted entries now
      = persisted ++ entries.map (fun e => { slug := e.1, floor := e.2, date := now }) := by
  induction entries generalizing persisted with
  | nil => simp [saveFloor]
  | cons e t ih =>
    simp only [saveFloor, List.foldl_cons, List.map_cons]
    have h := ih (persisted ++ [{ slug := e.1, floor := e.2, date := now }])
    simp only [saveFloor] at h
    rw [h, List.append_assoc]
    rfl

theorem findFloor_of_not_mem (old : List Persisted) (slug : String)
    (h : ∀ p ∈ old, p.slug ≠ slug) : findFloor old slug = 0 := by
  unfold findFloor
  rw [List.find?_eq_none.mpr]
  intro p hp
  simp only [beq_iff_eq]
  exact h p (List.mem_reverse.mp hp)

/-! ## C5: previous-floor lookup -/

/-- C5: `findFloor` returns the floor of the last Observation in sequence
order whose slug matches (the scan runs from newest to oldest), and returns
`0` when no Observation for the slug exists. -/
theorem findFloor_last_match (old : List Persisted) (slug : String) :
    ((∀ p ∈ old, p.slug ≠ slug) → findFloor old slug = 0) ∧
    (∀ pre mid post, old = pre ++ mid :: post → mid.slug = slug →
      (∀ q ∈ post, q.slug ≠ slug) → findFloor old slug = mid.floor) := by
  constructor
  · exact findFloor_of_not_mem old slug
  · intro pre mid post hsplit hmid hpost
    subst hsplit
    unfold findFloor
    rw [List.reverse_append, List.reverse_cons, List.find?_append, List.find?_append]
    rw [List.find?_eq_none.mpr (fun q hq => by
      simp only [beq_iff_eq]
      exact hpost q (List.mem_reverse.mp hq))]
    simp [List.find?_cons, hmid]

/-- Witness for C5: with history `x ↦ 2.0` (older) then `x ↦ 3.0` (newer), the
lookup for `x` returns `3.0` and the lookup for an absent slug returns `0`. -/
theorem findFloor_last_match_witness :
    findFloor [⟨"x", 2, 0⟩, ⟨"x", 3, 1⟩] "x" = 3 ∧
    findFloor [⟨"x", 2, 0⟩, ⟨"x", 3, 1⟩] "y" = 0 := by
  constructor
  · exact (findFloor_last_match [⟨"x", 2, 0⟩, ⟨"x", 3, 1⟩] "x").2
      [⟨"x", 2, 0⟩] ⟨"x", 3, 1⟩ [] rfl rfl (fun q hq => by simp at hq)
  · exact (findFloor_last_match [⟨"x", 2, 0⟩, ⟨"x", 3, 1⟩] "y").1
      (fun p hp => by
        rcases List.mem_cons.mp hp with h | h
        · subst h; decide
        · rcases List.mem_cons.mp h with h2 | h2
          · subst h2; decide
          · simp at h2)

/-! ## C1: the JSON-path extractor -/

/-- C1 counterexample: the claim says the key-missing / non-number-non-object
failure reports **the offending URL** and the unexpected value.  It does not:
the Go error there is `fmt.Errorf("invalid json traverse. Ended with %v", val)`,
whose data is only the unexpected value.  Concretely, for two different URLs
the extractor returns the very same error value on the same bad document, so
the error cannot carry the URL (while the value `"oops"` is carried). -/
theorem fetchFloor_no_url_in_invalid_error :
    fetchFloor "https://a.example" [("k", JSON.str "oops")] ["k"] 1
      = .error (.invalidTraverse (some (JSON.str "oops"))) ∧
    fetchFloor "https://b.example" [("k", JSON.str "oops")] ["k"] 1
      = .error (.invalidTraverse (some (JSON.str "oops"))) ∧
    "https://a.example" ≠ "https://b.example" :=
  ⟨rfl, rfl, by decide⟩

/-- C1 (amended): the traversal walks the path in order; the first numeric
leaf wins and is returned multiplied by the multiplier, immediately, even
when path keys remain unconsumed; a missing key or a value that is neither a
number nor an object fails with the invalid-traverse error carrying only the
unexpected value; an exhausted path fails with "floor not found" carrying the
URL. -/
theorem fetchFloor_traversal_spec (url : String) (stats : List (String × JSON))
    (tree : List String) (m : ℚ) :
    (tree = [] → fetchFloor url stats tree m = .error (.floorNotFound url)) ∧
    (∀ key rest v, tree = key :: rest → jsonLookup stats key = some (.num v) →
      fetchFloor url stats tree m = .ok (v * m)) ∧
    (∀ key rest fields, tree = key :: rest →
      jsonLookup stats key = some (.obj fields) →
      fetchFloor url stats tree m = fetchFloor url fields rest m) ∧
    (∀ key rest, tree = key :: rest →
      (∀ v, jsonLookup stats key ≠ some (.num v)) →
      (∀ fields, jsonLookup stats key ≠ some (.obj fields)) →
      fetchFloor url stats tree m = .error (.invalidTraverse (jsonLookup stats key))) := by
  refine ⟨?_, ?_, ?_, ?_⟩
  · intro h; subst h; rfl
  · intro key rest v h hl; subst h; simp [fetchFloor, hl]
  · intro key rest fields h hl; subst h; simp [fetchFloor, hl]
  · intro key rest h hnum hobj; subst h
    cases hl : jsonLookup stats key with
    | none => simp [fetchFloor, hl]
    | some j =>
      cases j with
      | num v => exact absurd hl (hnum v)
      | obj fields => exact absurd hl (hobj fields)
      | str s => simp [fetchFloor, hl]
      | boolean b => simp [fetchFloor, hl]
      | null => simp [fetchFloor, hl]
      | arr elems => simp [fetchFloor, hl]

/-- Witness for C1: a numeric leaf reached on the first key of a two-key path
returns `5 * 2 = 10` immediately, the remaining key unconsumed. -/
theorem fetchFloor_traversal_spec_witness :
    fetchFloor "u" [("a", JSON.num 5)] ["a", "b"] 2 = .ok 10 := by
  rw [(fetchFloor_traversal_spec "u" [("a", JSON.num 5)] ["a", "b"] 2).2.1
    "a" ["b"] 5 rfl rfl]
  norm_num

/-! ## C8: persistence is append-only -/

/-- C8: the sequence `saveFloor` writes is the old history, unmodified and in
its original order, followed by exactly one timestamped Observation per entry
of the new-floors mapping — no prior entry is rewritten or removed. -/
theorem saveFloor_append_only (persisted : List Persisted)
    (entries : List (String × ℚ)) (now : Nat) :
    saveFloor persisted entries now
      = persisted ++ entries.map (fun e => { slug := e.1, floor := e.2, date := now }) :=
  saveFloor_eq_append entries persisted now

/-! ## Step lemmas for the per-slug loop -/

theorem step_of_fetch_error (responses : String → Option (List (String × JSON)))
    (store : StoreConfig) (old_floors : List Persisted) (slug : String)
    (e : FloorError)
    (hfetch : fetchFloorNet responses (sprintf1 store.statsURL slug)
      store.tree store.multiplier = .error e)
    (acc : List String × List (String × ℚ)) :
    processSlugStep responses store old_floors acc slug = acc := by
  simp [processSlugStep, hfetch]

theorem step_of_unchanged (responses : String → Option (List (String × JSON)))
    (store : StoreConfig) (old_floors : List Persisted) (slug : String)
    (hpos : 0 < findFloor old_floors slug)
    (hfetch : fetchFloorNet responses (sprintf1 store.statsURL slug)
      store.tree store.multiplier = .ok (findFloor old_floors slug))
    (acc : List String × List (String × ℚ)) :
    processSlugStep responses store old_floors acc slug = acc := by
  simp [processSlugStep, hfetch, hpos]

theorem step_of_band (responses : String → Option (List (String × JSON)))
    (store : StoreConfig) (old_floors : List Persisted) (slug : String)
    (floor : ℚ)
    (hfetch : fetchFloorNet responses (sprintf1 store.statsURL slug)
      store.tree store.multiplier = .ok floor)
    (hne : ¬ (0 < findFloor old_floors slug ∧ findFloor old_floors slug = floor))
    (hband : store.max ≤ floor ∨ floor ≤ store.min)
    (acc : List String × List (String × ℚ)) :
    processSlugStep responses store old_floors acc slug
      = (acc.1, mapInsert acc.2 slug floor) := by
  simp only [processSlugStep, hfetch]
  rw [if_neg hne, if_pos hband]

theorem step_of_alert (responses : String → Option (List (String × JSON)))
    (store : StoreConfig) (old_floors : List Persisted) (slug : String)
    (floor : ℚ)
    (hfetch : fetchFloorNet responses (sprintf1 store.statsURL slug)
      store.tree store.multiplier = .ok floor)
    (hne : ¬ (0 < findFloor old_floors slug ∧ findFloor old_floors slug = floor))
    (hband : ¬ (store.max ≤ floor ∨ floor ≤ store.min))
    (acc : List String × List (String × ℚ)) :
    processSlugStep responses store old_floors acc slug
      = (acc.1 ++ [alertMsg slug (sprintf1 store.storeURL slug) floor
          ((floor - findFloor old_floors slug) / floor)],
         mapInsert acc.2 slug floor) := by
  simp only [processSlugStep, hfetch]
  rw [if_neg hne, if_neg hband]

theorem lookupFloors_mapInsert (m : List (String × ℚ)) (key : String) (v : ℚ) :
    lookupFloors (mapInsert m key v) key = some v := by
  induction m with
  | nil => simp [mapInsert, lookupFloors]
  | cons kv t ih =>
    by_cases hk : kv.1 = key
    · simp only [mapInsert, List.any_cons, hk, beq_self_eq_true, Bool.true_or,
        if_pos, List.map_cons, if_true]
      simp [lookupFloors]
    · have hk2 : (kv.1 == key) = false := by simp [hk]
      by_cases hany : t.any (fun kv => kv.1 == key)
      · simp only [mapInsert, List.any_cons, hk2, Bool.false_or, hany, if_true,
          List.map_cons, if_neg hk]
        simp only [lookupFloors, hk2, Bool.false_eq_true, if_false]
        have := ih
        simp only [mapInsert, hany, if_true] at this
        exact this
      · have hany2 : (t.any fun kv => kv.1 == key) = false := by
          cases h2 : (t.any fun kv => kv.1 == key) with
          | false => rfl
          | true => exact absurd h2 hany
        simp only [mapInsert, List.any_cons, hk2, Bool.false_or, hany2,
          Bool.false_eq_true, if_false, List.cons_append]
        simp only [lookupFloors, hk2, Bool.false_eq_true, if_false]
        have := ih
        simp only [mapInsert, hany2, Bool.false_eq_true, if_false] at this
        exact this

theorem foldl_fixed {α : Type} {β : Type} (f : α → β → α) (l : List β) (a : α)
    (h : ∀ b ∈ l, ∀ x, f x b = x) : l.foldl f a = a := by
  induction l generalizing a with
  | nil => rfl
  | cons b t ih =>
    rw [List.foldl_cons, h b (List.mem_cons_self b t), ih]
    intro c hc x
    exact h c (List.mem_cons_of_mem b hc) x

/-! ## Concrete fixtures used by witnesses and counterexamples -/

/-- A network on which every stats URL answers with the object `{"f": v}`. -/
def respTo (v : ℚ) : String → Option (List (String × JSON)) :=
  fun _ => some [("f", JSON.num v)]

/-- A store watching the single slug `x`, with band `(0, 5)`, path `["f"]`
and multiplier `1`. -/
def storeA : StoreConfig :=
  { slugs := ["x"], storeURL := "w/%s", statsURL := "s/%s",
    max := 5, min := 0, tree := ["f"], multiplier := 1 }

/-- Like `storeA` but with a wide band `(0, 100)`. -/
def storeB : StoreConfig :=
  { slugs := ["x"], storeURL := "w/%s", statsURL := "s/%s",
    max := 100, min := 0, tree := ["f"], multiplier := 1 }

/-- A configuration with `storeA` as its only store. -/
def cfgA : Config :=
  { telegram := { botID := "b", recipientID := "r" }, stores := [storeA],
    output := "hist.json" }

/-! ## C2: unchanged positive floor is fully suppressed -/

/-- C2: a slug whose most recent floor in history is strictly positive and
whose freshly fetched floor equals it is fully suppressed: the per-slug loop
body leaves both shared accumulators (alert lines, new-floors map) exactly as
they were. -/
theorem unchanged_floor_fully_suppressed
    (responses : String → Option (List (String × JSON)))
    (store : StoreConfig) (old_floors : List Persisted) (slug : String)
    (hpos : 0 < findFloor old_floors slug)
    (hfetch : fetchFloorNet responses (sprintf1 store.statsURL slug)
      store.tree store.multiplier = .ok (findFloor old_floors slug)) :
    ∀ acc, processSlugStep responses store old_floors acc slug = acc :=
  step_of_unchanged responses store old_floors slug hpos hfetch

/-- Witness for C2: history holds `x ↦ 3`, the fetch yields `3` again, and
processing `x` leaves the accumulators untouched. -/
theorem unchanged_floor_fully_suppressed_witness :
    processSlugStep (respTo 3) storeA [⟨"x", 3, 0⟩] (["m"], [("y", 7)]) "x"
      = (["m"], [("y", 7)]) := by
  have hpos : (0 : ℚ) < findFloor [⟨"x", 3, 0⟩] "x" := by
    norm_num [findFloor]
  have hfetch : fetchFloorNet (respTo 3) (sprintf1 storeA.statsURL "x")
      storeA.tree storeA.multiplier = .ok (findFloor [⟨"x", 3, 0⟩] "x") := by
    norm_num [fetchFloorNet, fetchFloor, respTo, jsonLookup, findFloor, storeA]
  exact unchanged_floor_fully_suppressed (respTo 3) storeA [⟨"x", 3, 0⟩] "x"
    hpos hfetch (["m"], [("y", 7)])

/-! ## C3: out-of-band floors are recorded but not alerted -/

/-- C3: a slug whose fetched floor differs from its previous floor but lies at
or outside the `(min, max)` band is still recorded in the new-floors map while
no alert line is produced: the loop body updates only the map. -/
theorem band_suppressed_still_recorded
    (responses : String → Option (List (String × JSON)))
    (store : StoreConfig) (old_floors : List Persisted) (slug : String)
    (floor : ℚ) (acc : List String × List (String × ℚ))
    (hfetch : fetchFloorNet responses (sprintf1 store.statsURL slug)
      store.tree store.multiplier = .ok floor)
    (hdif : findFloor old_floors slug ≠ floor)
    (hband : store.max ≤ floor ∨ floor ≤ store.min) :
    processSlugStep responses store old_floors acc slug
      = (acc.1, mapInsert acc.2 slug floor) :=
  step_of_band responses store old_floors slug floor hfetch
    (fun h => hdif h.2) hband acc

/-- Witness for C3: previous floor `3`, fetched floor `6` with `max = 5`: the
observation `x ↦ 6` is recorded, no alert line appears. -/
theorem band_suppressed_still_recorded_witness :
    processSlugStep (respTo 6) storeA [⟨"x", 3, 0⟩] ([], []) "x"
      = ([], [("x", 6)]) := by
  have hfetch : fetchFloorNet (respTo 6) (sprintf1 storeA.statsURL "x")
      storeA.tree storeA.multiplier = .ok 6 := by
    norm_num [fetchFloorNet, fetchFloor, respTo, jsonLookup, storeA]
  have hdif : findFloor [⟨"x", 3, 0⟩] "x" ≠ 6 := by
    norm_num [findFloor]
  have hband : storeA.max ≤ 6 ∨ (6 : ℚ) ≤ storeA.min := by
    left; norm_num [storeA]
  rw [band_suppressed_still_recorded (respTo 6) storeA [⟨"x", 3, 0⟩] "x" 6
    ([], []) hfetch hdif hband]
  rfl

/-! ## C10: a zero previous floor never suppresses recording -/

/-- C10: the unchanged-floor suppression requires a strictly positive previous
floor; when `findFloor` yields `0` (slug absent, or last stored floor `0`),
the fetched floor is always recorded in the new-floors map — even when it
equals the stored value. -/
theorem zero_previous_floor_rerecorded
    (responses : String → Option (List (String × JSON)))
    (store : StoreConfig) (old_floors : List Persisted) (slug : String)
    (floor : ℚ) (acc : List String × List (String × ℚ))
    (hfetch : fetchFloorNet responses (sprintf1 store.statsURL slug)
      store.tree store.multiplier = .ok floor)
    (hzero : findFloor old_floors slug = 0) :
    (processSlugStep responses store old_floors acc slug).2
        = mapInsert acc.2 slug floor ∧
    lookupFloors (processSlugStep responses store old_floors acc slug).2 slug
        = some floor := by
  have hne : ¬ (0 < findFloor old_floors slug ∧ findFloor old_floors slug = floor) := by
    intro h
    rw [hzero] at h
    exact lt_irrefl 0 h.1
  by_cases hband : store.max ≤ floor ∨ floor ≤ store.min
  · rw [step_of_band responses store old_floors slug floor hfetch hne hband acc]
    exact ⟨rfl, lookupFloors_mapInsert acc.2 slug floor⟩
  · rw [step_of_alert responses store old_floors slug floor hfetch hne hband acc]
    exact ⟨rfl, lookupFloors_mapInsert acc.2 slug floor⟩

/-- Witness for C10: history holds `x ↦ 0` and the fetch yields `0` again —
the value is unchanged, yet `x ↦ 0` is re-recorded in the new-floors map. -/
theorem zero_previous_floor_rerecorded_witness :
    (processSlugStep (respTo 0) storeA [⟨"x", 0, 5⟩] ([], []) "x").2
        = [("x", 0)] ∧
    lookupFloors (processSlugStep (respTo 0) storeA [⟨"x", 0, 5⟩] ([], []) "x").2 "x"
        = some 0 := by
  have hfetch : fetchFloorNet (respTo 0) (sprintf1 storeA.statsURL "x")
      storeA.tree storeA.multiplier = .ok 0 := by
    norm_num [fetchFloorNet, fetchFloor, respTo, jsonLookup, storeA]
  have hzero : findFloor [⟨"x", 0, 5⟩] "x" = 0 := by
    norm_num [findFloor]
  have h := zero_previous_floor_rerecorded (respTo 0) storeA [⟨"x", 0, 5⟩] "x" 0
    ([], []) hfetch hzero
  exact ⟨h.1.trans rfl, h.2⟩

/-! ## C4: percent-change formula and markers -/

/-- C4: when a slug produces an alert line, the line appended is built with
`dif = (floor - previous_floor) / floor` — division by the new floor — and
`alertMsg` renders the `*(+…%)*` emphasis marker exactly when `dif > 0` and
the backquoted neutral marker otherwise. -/
theorem alert_percent_change_and_marker
    (responses : String → Option (List (String × JSON)))
    (store : StoreConfig) (old_floors : List Persisted) (slug : String)
    (floor : ℚ) (acc : List String × List (String × ℚ))
    (hfetch : fetchFloorNet responses (sprintf1 store.statsURL slug)
      store.tree store.multiplier = .ok floor)
    (hch : ¬ (0 < findFloor old_floors slug ∧ findFloor old_floors slug = floor))
    (hband : ¬ (store.max ≤ floor ∨ floor ≤ store.min)) :
    processSlugStep responses store old_floors acc slug
      = (acc.1 ++ [alertMsg slug (sprintf1 store.storeURL slug) floor
          ((floor - findFloor old_floors slug) / floor)],
         mapInsert acc.2 slug floor) ∧
    (∀ (s u : String) (f d : ℚ), 0 < d →
      alertMsg s u f d
        = "[" ++ s ++ "](" ++ u ++ "): " ++ formatFixed 4 f
            ++ "*(+" ++ formatFixed 2 (d * 100) ++ "%)*") ∧
    (∀ (s u : String) (f d : ℚ), ¬ 0 < d →
      alertMsg s u f d
        = "[" ++ s ++ "](" ++ u ++ "): " ++ formatFixed 4 f
            ++ "`(" ++ formatFixed 2 (d * 100) ++ "%)`") := by
  refine ⟨step_of_alert responses store old_floors slug floor hfetch hch hband acc,
    ?_, ?_⟩
  · intro s u f d hd
    simp [alertMsg, hd]
  · intro s u f d hd
    simp [alertMsg, hd]

/-- Witness for C4: previous floor `4`, fetched floor `5` in the wide-band
store: `dif = (5 - 4) / 5 = 0.2 > 0`, and the single appended line carries the
`5.0000` floor and the `*(+20.00%)*` emphasis marker. -/
theorem alert_percent_change_and_marker_witness :
    processSlugStep (respTo 5) storeB [⟨"x", 4, 0⟩] ([], []) "x"
      = (["[x](w/x): 5.0000*(+20.00%)*"], [("x", 5)]) := by
  have hfetch : fetchFloorNet (respTo 5) (sprintf1 storeB.statsURL "x")
      storeB.tree storeB.multiplier = .ok 5 := by
    norm_num [fetchFloorNet, fetchFloor, respTo, jsonLookup, storeB]
  have hch : ¬ (0 < findFloor [⟨"x", 4, 0⟩] "x" ∧ findFloor [⟨"x", 4, 0⟩] "x" = 5) := by
    norm_num [findFloor]
  have hband : ¬ (storeB.max ≤ 5 ∨ (5 : ℚ) ≤ storeB.min) := by
    norm_num [storeB]
  have h := alert_percent_change_and_marker (respTo 5) storeB [⟨"x", 4, 0⟩] "x" 5
    ([], []) hfetch hch hband
  rw [h.1, h.2.1 "x" (sprintf1 storeB.storeURL "x") 5
    ((5 - findFloor [⟨"x", 4, 0⟩] "x") / 5) (by norm_num [findFloor])]
  have hd : (5 - findFloor [⟨"x", 4, 0⟩] "x") / 5 * 100 = (20 : ℚ) := by
    norm_num [findFloor]
  rw [hd]
  have h4 : formatFixed 4 5 = "5.0000" := by
    norm_num [formatFixed, qRound, natPad]; decide
  have h2 : formatFixed 2 20 = "20.00" := by
    norm_num [formatFixed, qRound, natPad]; decide
  rw [h4, h2]
  have hurl : sprintf1 storeB.storeURL "x" = "w/x" := by
    norm_num [sprintf1, storeB]; decide
  rw [hurl]
  rfl

/-! ## C6: one notification, one write, idempotent empty cycle -/

/-- C6 counterexample: in a cycle where no fetched floor differs from its
previous floor in history — slug `x` has stored floor `0` and the fetch yields
`0` again — the claim promises zero persistence writes, but `watchFloor`
still performs one: a zero previous floor is re-recorded, making the
new-floors map nonempty. -/
theorem cycle_zero_floor_still_writes :
    fetchFloorNet (respTo 0) (sprintf1 storeA.statsURL "x")
        storeA.tree storeA.multiplier = .ok (findFloor [⟨"x", 0, 0⟩] "x") ∧
    (watchFloor (respTo 0) id cfgA [⟨"x", 0, 0⟩] 7).sent = [] ∧
    (watchFloor (respTo 0) id cfgA [⟨"x", 0, 0⟩] 7).written ≠ [] := by
  refine ⟨?_, ?_, ?_⟩
  · norm_num [fetchFloorNet, fetchFloor, respTo, jsonLookup, storeA, findFloor]
  · norm_num [watchFloor, pollStores, processStore, processSlugStep,
      fetchFloorNet, fetchFloor, respTo, jsonLookup, cfgA, storeA, findFloor,
      mapInsert]
  · norm_num [watchFloor, pollStores, processStore, processSlugStep,
      fetchFloorNet, fetchFloor, respTo, jsonLookup, cfgA, storeA, findFloor,
      mapInsert, saveFloor]

/-- C6 (amended): per cycle, `watchFloor` sends exactly one notification — all
alert lines joined by newlines — iff at least one alert line was produced,
and performs exactly one history write iff at least one new floor was
recorded; and a cycle in which every successful fetch returns a floor equal
to a strictly positive previous floor performs zero sends and zero writes
(the strict positivity is needed: see the counterexample, a floor stored as
`0` is re-recorded even when unchanged). -/
theorem cycle_single_notification_single_write
    (responses : String → Option (List (String × JSON)))
    (iter : List (String × ℚ) → List (String × ℚ))
    (config : Config) (old_floors : List Persisted) (now : Nat) :
    ((pollStores responses config.stores old_floors).1 ≠ [] →
      (watchFloor responses iter config old_floors now).sent
        = [String.intercalate "\n" (pollStores responses config.stores old_floors).1]) ∧
    ((pollStores responses config.stores old_floors).1 = [] →
      (watchFloor responses iter config old_floors now).sent = []) ∧
    ((pollStores responses config.stores old_floors).2 ≠ [] →
      (watchFloor responses iter config old_floors now).written
        = [saveFloor old_floors (iter (pollStores responses config.stores old_floors).2) now]) ∧
    ((pollStores responses config.stores old_floors).2 = [] →
      (watchFloor responses iter config old_floors now).written = []) ∧
    ((∀ store ∈ config.stores, ∀ slug ∈ store.slugs, ∀ f,
        fetchFloorNet responses (sprintf1 store.statsURL slug)
          store.tree store.multiplier = .ok f →
        0 < findFloor old_floors slug ∧ findFloor old_floors slug = f) →
      (watchFloor responses iter config old_floors now).sent = [] ∧
      (watchFloor responses iter config old_floors now).written = []) := by
  refine ⟨?_, ?_, ?_, ?_, ?_⟩
  · intro h
    simp [watchFloor, List.length_pos, h]
  · intro h
    simp [watchFloor, h]
  · intro h
    simp [watchFloor, List.length_pos, h]
  · intro h
    simp [watchFloor, h]
  · intro hstable
    have hpoll : pollStores responses config.stores old_floors = ([], []) := by
      unfold pollStores
      apply foldl_fixed
      intro store hstore acc
      unfold processStore
      apply foldl_fixed
      intro slug hslug x
      cases hfetch : fetchFloorNet responses (sprintf1 store.statsURL slug)
          store.tree store.multiplier with
      | error e => exact step_of_fetch_error responses store old_floors slug e hfetch x
      | ok f =>
        obtain ⟨hpos, heq⟩ := hstable store hstore slug hslug f hfetch
        have hf2 : fetchFloorNet responses (sprintf1 store.statsURL slug)
            store.tree store.multiplier = .ok (findFloor old_floors slug) := by
          rw [heq]; exact hfetch
        exact step_of_unchanged responses store old_floors slug hpos hf2 x
    constructor
    · simp [watchFloor, hpoll]
    · simp [watchFloor, hpoll]

/-- Witness for C6: one store, one slug, stored floor `3 > 0`, fetch returns
`3` again — the cycle sends nothing and writes nothing. -/
theorem cycle_single_notification_single_write_witness :
    (watchFloor (respTo 3) id cfgA [⟨"x", 3, 0⟩] 7).sent = [] ∧
    (watchFloor (respTo 3) id cfgA [⟨"x", 3, 0⟩] 7).written = [] := by
  refine (cycle_single_notification_single_write (respTo 3) id cfgA
    [⟨"x", 3, 0⟩] 7).2.2.2.2 ?_
  intro store hstore slug hslug f hfetch
  have hst : store = storeA := by
    simpa [cfgA] using hstore
  subst hst
  have hsl : slug = "x" := by
    simpa [storeA] using hslug
  subst hsl
  have h3 : (3 : ℚ) = f := by
    have := hfetch
    norm_num [fetchFloorNet, fetchFloor, respTo, jsonLookup, storeA] at this
    exact this
  constructor
  · norm_num [findFloor]
  · rw [← h3]
    norm_num [findFloor]

/-! ## C7: append order versus slug-list order -/

/-- A store watching the slugs `a` then `b` whose band `(0, 1)` suppresses all
alerts (`floor >= max` at floor `1`), keeping the fixture free of message
formatting. -/
def storeAB : StoreConfig :=
  { slugs := ["a", "b"], storeURL := "w/%s", statsURL := "s/%s",
    max := 1, min := 0, tree := ["f"], multiplier := 1 }

/-- C7 counterexample: the poller records the two new floors in slug-list
order `[a, b]`, but `saveFloor` appends them in the order Go happens to
iterate the `floors` map — which is unspecified, so the reversed order is an
admissible iteration (it is a permutation of the entries) — and under it the
appended Observations are `[b, a]`, not the slug-list order `[a, b]`. -/
theorem saveFloor_not_slug_list_order :
    (pollStores (respTo 1) [storeAB] []).2 = [("a", 1), ("b", 1)] ∧
    List.Perm ((pollStores (respTo 1) [storeAB] []).2.reverse)
      ((pollStores (respTo 1) [storeAB] []).2) ∧
    saveFloor [] ((pollStores (respTo 1) [storeAB] []).2.reverse) 9
      = [⟨"b", 1, 9⟩, ⟨"a", 1, 9⟩] ∧
    ([⟨"b", 1, 9⟩, ⟨"a", 1, 9⟩] : List Persisted)
      ≠ [⟨"a", 1, 9⟩, ⟨"b", 1, 9⟩] := by
  have h2 : (pollStores (respTo 1) [storeAB] []).2 = [("a", 1), ("b", 1)] := by
    norm_num [pollStores, processStore, processSlugStep, fetchFloorNet,
      fetchFloor, respTo, jsonLookup, storeAB, findFloor, mapInsert]
    decide
  refine ⟨h2, ?_, ?_, ?_⟩
  · rw [h2]
    exact List.Perm.swap _ _ _
  · rw [h2]
    rfl
  · intro h
    have := congrArg (fun l => List.head? l) h
    simp at this

/-- C7 (amended): `saveFloor` keeps the old history unchanged as a prefix, and
what follows it is exactly the new Observations of the cycle — one per entry of
the new-floors mapping, in whatever order the map iteration yields (any
permutation of the recorded entries), not necessarily slug-list order. -/
theorem saveFloor_appends_some_permutation (persisted : List Persisted)
    (entries order : List (String × ℚ)) (now : Nat)
    (hperm : List.Perm order entries) :
    (saveFloor persisted order now).take persisted.length = persisted ∧
    List.Perm ((saveFloor persisted order now).drop persisted.length)
      (entries.map (fun e => { slug := e.1, floor := e.2, date := now })) := by
  rw [saveFloor_eq_append]
  constructor
  · exact List.take_left persisted _
  · rw [List.drop_left]
    exact hperm.map _

/-- Witness for C7 (amended): the reversed iteration order `[b, a]` of the
recorded entries `[a, b]` keeps the old history prefix and appends a
permutation of the two new Observations. -/
theorem saveFloor_appends_some_permutation_witness :
    (saveFloor [⟨"z", 9, 0⟩] [("b", 2), ("a", 1)] 4).take 1 = [⟨"z", 9, 0⟩] ∧
    List.Perm ((saveFloor [⟨"z", 9, 0⟩] [("b", 2), ("a", 1)] 4).drop 1)
      [⟨"a", 1, 4⟩, ⟨"b", 2, 4⟩] :=
  saveFloor_appends_some_permutation [⟨"z", 9, 0⟩] [("a", 1), ("b", 2)]
    [("b", 2), ("a", 1)] 4 (List.Perm.swap _ _ _)
